import Mathlib

/-!
Verification of the offline-write-queue / optimistic-cache synchronization
mechanism of the Royal Tree Services CRM client.

The definitions below are a shallow embedding of the browser-side modules
`api.js` (the `apiRequest` helper and the `OfflineSync` service) and
`clientService.js` (the `ClientService` cache with its listener registry).
JavaScript objects are modelled as Lean structures carrying the fields the
code reads; `localStorage` entries are modelled in parsed form, with the
JSON round trip made explicit where it matters (function-valued fields are
dropped by `JSON.stringify`).  Exceptions are modelled with `Except`:
a JavaScript function that can throw returns `Except JsThrown A`, and a
`try { ... } catch (e) { ... }` block is a `match` on that value.
-/

/-- HTTP method of a request, as set in the fetch options of the source. -/
inductive Method where
  | GET
  | POST
  | PATCH
  | DELETE
deriving DecidableEq

/-- Fetch options built by the callers of `apiRequest`: a method and an
optional JSON body (`JSON.stringify` of the payload; the payload itself is
modelled as an opaque string). -/
structure ReqOptions where
  method : Method
  body : Option String
deriving DecidableEq

/-- A note sub-record of a client, with the fields the client code reads:
`_id`, `content`, `createdAt` and the provisional marker `_isTemp`
(absent on server records, modelled as `false`). -/
structure NoteRec where
  _id : String
  content : String
  createdAt : Nat
  _isTemp : Bool
deriving DecidableEq

/-- A client record of the Local Mirror (`ClientService.clients` entries).
`name` stands for the business-field payload (`clientData`); `_isTemp` is
the provisional flag, absent (`false`) on server-confirmed records. -/
structure ClientRec where
  _id : String
  name : String
  createdAt : Nat
  updatedAt : Nat
  _isTemp : Bool
  notes : List NoteRec
deriving DecidableEq

/-- A value thrown by JavaScript code and caught by a `catch (error)`
block; the handlers of the source only read `error.statusCode`, which is
`undefined` (modelled `none`) unless the thrown value carries one. -/
structure JsThrown where
  statusCode : Option Nat
deriving DecidableEq

/-- Outcome of one `fetch` of `apiRequest`, as classified by the source:
the response was ok and parsed to a success body carrying the record, the
response was received but not ok (its status code), or the fetch rejected
(request made, no response received). -/
inductive FetchOutcome where
  | ok (client : ClientRec)
  | httpError (status : Nat)
  | networkFailure
deriving DecidableEq

/-- The backend as seen through `fetch`: each request (endpoint and
options) produces one `FetchOutcome`. -/
def Backend : Type := String → ReqOptions → FetchOutcome

/-- Result value produced by the API layer, discriminated in the source by
its `status` string: `success` (body with `data.client`), the standardized
`handleError` object (`status : error` with a `statusCode`), or the
`queued` result produced by `OfflineSync.performOperation`. -/
inductive ApiRes where
  | success (client : ClientRec)
  | error (statusCode : Nat)
  | queued
deriving DecidableEq

/-- The error caught inside `apiRequest`: either the thrown
`\x7bresponse: \x7bstatus, data\x7d\x7d` of a non-ok response, or a fetch
rejection carrying `error.request` and no response. -/
inductive ApiError where
  | response (status : Nat)
  | request
deriving DecidableEq

/-- `handleError` of `api.js`: maps a response error to a standardized
error object with its status code, and a no-response error to one with
`statusCode` 0. -/
def handleError : ApiError → ApiRes
  | .response s => .error s
  | .request => .error 0

/-- The `try` block of `apiRequest`: makes the request, parses the body,
and throws `\x7bresponse: \x7bstatus, data\x7d\x7d` when the response is
not ok; a fetch rejection propagates as a request error. -/
def apiRequestTry : FetchOutcome → Except ApiError ApiRes
  | .ok c => .ok (.success c)
  | .httpError s => .error (.response s)
  | .networkFailure => .error .request

/-- `apiRequest` of `api.js`: the `try` block with its `catch`, which
converts every caught error into the `handleError` object and returns it
as a normal value. -/
def apiRequest (o : FetchOutcome) : ApiRes :=
  match apiRequestTry o with
  | .ok d => d
  | .error e => handleError e

/-- `await apiRequest(...)` as seen by a caller with its own
`try`/`catch`: the promise of `apiRequest` never rejects, because every
internal throw is converted by `handleError` into a normal return value,
so the awaited value is always `.ok`. -/
def apiRequestAwait (o : FetchOutcome) : Except JsThrown ApiRes :=
  .ok (apiRequest o)

/-- The transient-failure test `error.statusCode >= 500 ||
error.statusCode === 0` of the source; on a thrown value without a
`statusCode` field both comparisons are false. -/
def transientCode : Option Nat → Bool
  | some n => decide (500 ≤ n) || decide (n = 0)
  | none => false

/-- The defunctionalized completion callbacks passed to
`OfflineSync.performOperation` by `ClientService`; each constructor names
the closure of the corresponding service method. -/
inductive Callback where
  | createClientCb
  | deleteClientCb (id : String)
  | addClientNoteCb (id : String)
deriving DecidableEq

/-- One entry of `OfflineSync.queue`: endpoint, fetch options, optional
completion callback, and the enqueue timestamp `Date.now()`. -/
structure QueuedOp where
  endpoint : String
  options : ReqOptions
  callback : Option Callback
  timestamp : Nat
deriving DecidableEq

/-- A queue entry as it survives the `JSON.stringify` round trip into
`localStorage`: the function-valued `callback` field is dropped, all other
fields round-trip. -/
structure PersistedOp where
  endpoint : String
  options : ReqOptions
  timestamp : Nat
deriving DecidableEq

/-- `JSON.stringify` of one queue entry: keeps the plain data fields and
drops the function-valued `callback`. -/
def toPersisted (op : QueuedOp) : PersistedOp :=
  { endpoint := op.endpoint, options := op.options, timestamp := op.timestamp }

/-- `JSON.parse` of one persisted queue entry: the restored object has no
`callback` field. -/
def ofPersisted (p : PersistedOp) : QueuedOp :=
  { endpoint := p.endpoint, options := p.options, callback := none,
    timestamp := p.timestamp }

/-- The combined mutable state of `OfflineSync` and `ClientService`,
together with two instrumentation traces that record the observable
actions of a drain: `queue` is `OfflineSync.queue`, `offline_queue` the
parsed content of the `localStorage` key of the same name, `clients` is
`ClientService.clients` (the Local Mirror) and `cached_clients` the
parsed content of its `localStorage` key; `attempted` records, in order,
every queued operation for which the drain issued a request to the Remote
Client, and `invoked` records every completion callback the drain ran. -/
structure AppSt where
  queue : List QueuedOp
  offline_queue : List PersistedOp
  clients : List ClientRec
  cached_clients : List ClientRec
  attempted : List QueuedOp
  invoked : List Callback
deriving DecidableEq

/-- The `localStorage.setItem` of `cached_clients` performed by the
service methods right after they touch the mirror. -/
def cacheClients (st : AppSt) : AppSt :=
  { st with cached_clients := st.clients }

/-- `OfflineSync.addToQueue`: pushes the operation onto the live queue and
immediately persists the full queue (the stored copy goes through the
JSON round trip, so callbacks are not persisted). -/
def addToQueue (endpoint : String) (options : ReqOptions)
    (callback : Option Callback) (now : Nat) (st : AppSt) : AppSt :=
  let queue := st.queue ++ [⟨endpoint, options, callback, now⟩]
  { st with queue := queue, offline_queue := queue.map toPersisted }

/-- `OfflineSync.performOperation`: when `navigator.onLine`, awaits
`apiRequest` and returns its value; the `catch` block queues the
operation and answers `queued` when the caught error has a transient
status code, and otherwise returns the caught error (modelled as the
standardized error object it would carry).  When offline, the operation
is queued directly. -/
def performOperation (onLine : Bool) (backend : Backend) (endpoint : String)
    (options : ReqOptions) (callback : Option Callback) (now : Nat)
    (st : AppSt) : ApiRes × AppSt :=
  if onLine then
    match apiRequestAwait (backend endpoint options) with
    | .ok r => (r, st)
    | .error e =>
      if transientCode e.statusCode then
        (.queued, addToQueue endpoint options callback now st)
      else
        (.error (e.statusCode.getD 0), st)
  else
    (.queued, addToQueue endpoint options callback now st)

/-- The index lookup `clients.findIndex(client => client._id === id)`
paired with the record found there: `none` models the `-1` result. -/
def findClient (clients : List ClientRec) (id : String) :
    Option (Nat × ClientRec) :=
  match clients.findIdx? (fun c => c._id == id) with
  | some i => (clients[i]?).map (fun c => (i, c))
  | none => none

/-- The completion callbacks of `clientService.js`, run against the
service state when a drained operation yields its result.  Each branch is
the body of the closure the service method passes to `performOperation`:
on a `success` result it updates `ClientService.clients`, persists the
mirror and notifies listeners; on any other result it does nothing. -/
def runCallback (cb : Callback) (result : ApiRes) (st : AppSt) : AppSt :=
  match cb with
  | .createClientCb =>
    match result with
    | .success c => cacheClients { st with clients := st.clients ++ [c] }
    | _ => st
  | .deleteClientCb id =>
    match result with
    | .success _ =>
      cacheClients
        { st with clients := st.clients.filter (fun c => c._id ≠ id) }
    | _ => st
  | .addClientNoteCb id =>
    match result with
    | .success c =>
      match findClient st.clients id with
      | some (i, _) => cacheClients { st with clients := st.clients.set i c }
      | none => st
    | _ => st

/-- The `try` block of one iteration of the drain loop of
`OfflineSync.syncWithServer`: awaits `apiRequest` for the stored endpoint
and options (recorded in the `attempted` trace), then runs the completion
callback on the result when the operation has one (recorded in the
`invoked` trace). -/
def syncTry (backend : Backend) (op : QueuedOp) (st : AppSt) :
    Except JsThrown AppSt := do
  let result ← apiRequestAwait (backend op.endpoint op.options)
  let st1 := { st with attempted := st.attempted ++ [op] }
  match op.callback with
  | some cb =>
    pure (runCallback cb result { st1 with invoked := st1.invoked ++ [cb] })
  | none => pure st1

/-- One iteration of the drain loop with its `catch`: a caught error with
a transient status code pushes the operation back onto the live queue and
persists it; any other caught error drops the operation. -/
def syncStep (backend : Backend) (op : QueuedOp) (st : AppSt) : AppSt :=
  match syncTry backend op st with
  | .ok st2 => st2
  | .error e =>
    if transientCode e.statusCode then
      let queue := st.queue ++ [op]
      { st with queue := queue, offline_queue := queue.map toPersisted }
    else st

/-- `OfflineSync.syncWithServer`: returns untouched when offline or when
the queue is empty; otherwise snapshots the queue, empties the live queue
and persists the empty state, then processes every snapshot operation in
order through the loop body. -/
def syncWithServer (onLine : Bool) (backend : Backend) (st : AppSt) : AppSt :=
  if !onLine || st.queue.isEmpty then st
  else
    let operations := st.queue
    let st1 := { st with queue := [], offline_queue := [] }
    operations.foldl (fun s op => syncStep backend op s) st1

/-- The temporary identifier `temp_` followed by the decimal
representation of `Date.now()`, as interpolated by the template literals
of the queued branches of `clientService.js`. -/
def tempId (now : Nat) : String :=
  "temp_" ++ Nat.repr now

/-- `ClientService.createClient`: performs the POST through
`performOperation` with the completion callback that pushes the confirmed
record.  On `success` the confirmed record is pushed to the mirror and
cached; on `queued` a provisional record with a temporary identifier and
the `_isTemp` flag is pushed and cached; otherwise the call answers
`none` (the source returns `null`). -/
def createClient (onLine : Bool) (backend : Backend) (clientData : String)
    (now : Nat) (st : AppSt) : Option ClientRec × AppSt :=
  let (response, st1) :=
    performOperation onLine backend "/clients"
      ⟨.POST, some clientData⟩ (some .createClientCb) now st
  match response with
  | .success c =>
    (some c, cacheClients { st1 with clients := st1.clients ++ [c] })
  | .queued =>
    let tempClient : ClientRec :=
      { _id := tempId now, name := clientData, createdAt := now,
        updatedAt := now, _isTemp := true, notes := [] }
    (some tempClient,
      cacheClients { st1 with clients := st1.clients ++ [tempClient] })
  | .error _ => (none, st1)

/-- `ClientService.deleteClient`: performs the DELETE through
`performOperation`; on a `success` or a `queued` response it removes the
record from the mirror, caches, and answers `true`; otherwise it answers
`false`. -/
def deleteClient (onLine : Bool) (backend : Backend) (id : String)
    (now : Nat) (st : AppSt) : Bool × AppSt :=
  let (response, st1) :=
    performOperation onLine backend ("/clients/" ++ id)
      ⟨.DELETE, none⟩ (some (.deleteClientCb id)) now st
  match response with
  | .success _ =>
    (true, cacheClients
      { st1 with clients := st1.clients.filter (fun c => c._id ≠ id) })
  | .queued =>
    (true, cacheClients
      { st1 with clients := st1.clients.filter (fun c => c._id ≠ id) })
  | .error _ => (false, st1)

/-- `ClientService.addClientNote`: performs the POST of the note through
`performOperation`; on `success` the confirmed client replaces the mirror
entry found by identifier; on `queued` a provisional note with a
temporary identifier and the `_isTemp` flag is appended to the mirror
entry found by identifier; when the identifier is not in the mirror the
call answers `none` (the source returns `null`). -/
def addClientNote (onLine : Bool) (backend : Backend) (id : String)
    (noteData : String) (now : Nat) (st : AppSt) : Option ClientRec × AppSt :=
  let (response, st1) :=
    performOperation onLine backend ("/clients/" ++ id ++ "/notes")
      ⟨.POST, some noteData⟩ (some (.addClientNoteCb id)) now st
  match response with
  | .success c =>
    match findClient st1.clients id with
    | some (i, _) =>
      (some c, cacheClients { st1 with clients := st1.clients.set i c })
    | none => (none, st1)
  | .queued =>
    match findClient st1.clients id with
    | some (i, cl) =>
      let tempNote : NoteRec :=
        { _id := tempId now, content := noteData, createdAt := now,
          _isTemp := true }
      let updatedClient : ClientRec :=
        { cl with notes := cl.notes ++ [tempNote], updatedAt := now }
      (some updatedClient,
        cacheClients { st1 with clients := st1.clients.set i updatedClient })
    | none => (none, st1)
  | .error _ => (none, st1)

/-!
Cooperative interleaving of drains.  JavaScript runs the client on one
thread: `syncWithServer` executes synchronously from its guard through the
snapshot, the emptying of the live queue and the persist, and suspends
only at the `await` inside its loop.  A machine state holds the shared
service state together with the in-flight drains, each reduced to the
not-yet-processed remainder of its snapshot; an event is one atomic piece
of execution between suspension points: a new invocation of
`syncWithServer` (its synchronous prefix), one loop iteration of an
in-flight drain, or an `addToQueue` performed by some caller.
-/

/-- A machine state: the shared `OfflineSync`/`ClientService` state plus
the snapshot remainders of the in-flight drains. -/
structure Machine where
  app : AppSt
  tasks : List (List QueuedOp)
deriving DecidableEq

/-- One scheduling event: an invocation of `syncWithServer` (reading the
current `navigator.onLine`), one loop iteration of in-flight drain `i`,
or an `addToQueue` by a concurrent caller. -/
inductive Ev where
  | invoke (onLine : Bool)
  | step (i : Nat)
  | enq (endpoint : String) (options : ReqOptions) (callback : Option Callback)
      (now : Nat)
deriving DecidableEq

/-- The effect of one event.  `invoke` runs the synchronous prefix of
`syncWithServer`: on the guard it does nothing, otherwise it snapshots
the queue, empties and persists it, and registers the snapshot as a new
in-flight drain.  `step i` runs one loop iteration of drain `i` (nothing
when that drain is finished).  `enq` runs `addToQueue`. -/
def machStep (backend : Backend) (m : Machine) : Ev → Machine
  | .invoke onLine =>
    if !onLine || m.app.queue.isEmpty then m
    else
      let operations := m.app.queue
      { app := { m.app with queue := [], offline_queue := [] },
        tasks := m.tasks ++ [operations] }
  | .step i =>
    match m.tasks[i]? with
    | some (op :: rest) =>
      { app := syncStep backend op m.app, tasks := m.tasks.set i rest }
    | _ => m
  | .enq endpoint options callback now =>
    { m with app := addToQueue endpoint options callback now m.app }

/-- Runs a list of events in order. -/
def machRun (backend : Backend) (m : Machine) : List Ev → Machine
  | [] => m
  | e :: evs => machRun backend (machStep backend m e) evs

/-- The machine state at rest: pending queue `q` (persisted, as `init`
leaves it after restoring), no in-flight drain, empty mirror and empty
traces. -/
def initMachine (q : List QueuedOp) : Machine :=
  { app := { queue := q, offline_queue := q.map toPersisted, clients := [],
             cached_clients := [], attempted := [], invoked := [] },
    tasks := [] }

/-- The operations enqueued by the `enq` events of a schedule, in order. -/
def enqueuedOps : List Ev → List QueuedOp
  | [] => []
  | .enq endpoint options callback now :: evs =>
    ⟨endpoint, options, callback, now⟩ :: enqueuedOps evs
  | _ :: evs => enqueuedOps evs

/-- Whether a schedule contains an invocation of `syncWithServer`. -/
def hasInvoke : List Ev → Bool
  | [] => false
  | .invoke _ :: _ => true
  | _ :: evs => hasInvoke evs

/-- The operations a machine state still owes an attempt or already
attempted: the attempt trace, the in-flight snapshots, and the live
queue, as a multiset. -/
def pendingOps (m : Machine) : Multiset QueuedOp :=
  (m.app.attempted : Multiset QueuedOp) + (m.tasks.flatten : Multiset QueuedOp)
    + (m.app.queue : Multiset QueuedOp)

/-!
The Change Notifier.  `ClientService.listeners` is an array of functions;
a listener is modelled as a function from the published mirror snapshot
to an `Except`, so that a listener that throws is an `.error` value.
-/

/-- A registered observer: receives the mirror snapshot and either
returns normally or raises. -/
def Listener : Type := List ClientRec → Except JsThrown Unit

/-- `ClientService.addListener`: pushes the listener onto the registry
(the `typeof listener === function` guard always holds here, every
`Listener` being a function). -/
def addListener (listeners : List Listener) (l : Listener) : List Listener :=
  listeners ++ [l]

/-- What the `try`/`catch` around one listener invocation observes:
the listener returned, or it raised and the error was logged. -/
inductive NotifyOutcome where
  | completed
  | raised (e : JsThrown)

/-- One iteration of the `forEach` of `_notifyListeners`: invoke the
listener on the mirror snapshot inside `try`, catch and log an error. -/
def notifyOne (clients : List ClientRec) (l : Listener) : NotifyOutcome :=
  match l clients with
  | .ok _ => .completed
  | .error e => .raised e

/-- `ClientService._notifyListeners`: synchronously invokes every
registered listener in registry order, each inside its own `try`/`catch`;
the returned list records, in order, the outcome of each invocation. -/
def notifyListeners (listeners : List Listener) (clients : List ClientRec) :
    List NotifyOutcome :=
  match listeners with
  | [] => []
  | l :: rest => notifyOne clients l :: notifyListeners rest clients

/-!
Decimal representation.  The temporary identifiers interpolate
`Date.now()` with a template literal, which prints the number in decimal:
`Nat.repr` in the embedding.  The evaluator below undoes that printing,
which gives injectivity of `Nat.repr` and hence distinctness of the
identifiers of operations queued at distinct timestamps.
-/

/-- Reads a decimal digit string back to the number it prints. -/
def digitsVal (l : List Char) : Nat :=
  l.foldl (fun a c => 10 * a + (c.toNat - 48)) 0

/-- A fresh service state: empty queue, empty mirror, empty storage and
empty traces. -/
def emptySt : AppSt :=
  { queue := [], offline_queue := [], clients := [], cached_clients := [],
    attempted := [], invoked := [] }

/-- A backend whose every response is ok and carries `c`. -/
def backendOk (c : ClientRec) : Backend := fun _ _ => .ok c

/-- A backend whose every response is a server-side 500 error. -/
def backendServerError : Backend := fun _ _ => .httpError 500

/-- A backend that never answers: every fetch rejects. -/
def backendNoResponse : Backend := fun _ _ => .networkFailure

/-- A server-confirmed record, as the backend would return it. -/
def acmeSrv : ClientRec :=
  { _id := "abc123", name := "Acme", createdAt := 9, updatedAt := 9,
    _isTemp := false, notes := [] }

/-- The provisional record `createClient` builds for payload `Acme` when
the operation is queued at time 5. -/
def tempAcme5 : ClientRec :=
  { _id := tempId 5, name := "Acme", createdAt := 5, updatedAt := 5,
    _isTemp := true, notes := [] }

/-- A mirror record with identifier `id1`, used as deletion target. -/
def clientId1 : ClientRec :=
  { _id := "id1", name := "Olde", createdAt := 1, updatedAt := 1,
    _isTemp := false, notes := [] }

/-- A queued create operation, used as concrete fixture. -/
def opA : QueuedOp := ⟨"/clients", ⟨.POST, some "A"⟩, none, 1⟩

/-- A second queued create operation, distinct from `opA`. -/
def opB : QueuedOp := ⟨"/clients", ⟨.POST, some "B"⟩, none, 2⟩

/-- A raising listener: throws on every notification. -/
def badListener : Listener := fun _ => .error ⟨none⟩

/-- A well-behaved listener: returns on every notification. -/
def goodListener : Listener := fun _ => .ok ()

theorem runCallback_queue (cb : Callback) (r : ApiRes) (st : AppSt) :
    (runCallback cb r st).queue = st.queue := by
  cases cb <;> cases r <;>
    simp only [runCallback, cacheClients] <;>
    first
      | rfl
      | (rename_i id _; cases h : findClient st.clients id <;>
          [rfl; (rename_i p; cases p; rfl)])

theorem runCallback_offline_queue (cb : Callback) (r : ApiRes) (st : AppSt) :
    (runCallback cb r st).offline_queue = st.offline_queue := by
  cases cb <;> cases r <;>
    simp only [runCallback, cacheClients] <;>
    first
      | rfl
      | (rename_i id _; cases h : findClient st.clients id <;>
          [rfl; (rename_i p; cases p; rfl)])

theorem runCallback_attempted (cb : Callback) (r : ApiRes) (st : AppSt) :
    (runCallback cb r st).attempted = st.attempted := by
  cases cb <;> cases r <;>
    simp only [runCallback, cacheClients] <;>
    first
      | rfl
      | (rename_i id _; cases h : findClient st.clients id <;>
          [rfl; (rename_i p; cases p; rfl)])

theorem runCallback_invoked (cb : Callback) (r : ApiRes) (st : AppSt) :
    (runCallback cb r st).invoked = st.invoked := by
  cases cb <;> cases r <;>
    simp only [runCallback, cacheClients] <;>
    first
      | rfl
      | (rename_i id _; cases h : findClient st.clients id <;>
          [rfl; (rename_i p; cases p; rfl)])

theorem syncTry_ok (backend : Backend) (op : QueuedOp) (st : AppSt) :
    syncTry backend op st =
      .ok (match op.callback with
        | some cb =>
          runCallback cb (apiRequest (backend op.endpoint op.options))
            { st with attempted := st.attempted ++ [op],
                      invoked := st.invoked ++ [cb] }
        | none => { st with attempted := st.attempted ++ [op] }) := by
  cases h : op.callback <;>
    simp [syncTry, apiRequestAwait, h, Except.bind, bind, pure, Except.pure]

theorem syncStep_eq (backend : Backend) (op : QueuedOp) (st : AppSt) :
    syncStep backend op st =
      match op.callback with
      | some cb =>
        runCallback cb (apiRequest (backend op.endpoint op.options))
          { st with attempted := st.attempted ++ [op],
                    invoked := st.invoked ++ [cb] }
      | none => { st with attempted := st.attempted ++ [op] } := by
  simp [syncStep, syncTry_ok]

theorem syncStep_queue (backend : Backend) (op : QueuedOp) (st : AppSt) :
    (syncStep backend op st).queue = st.queue := by
  rw [syncStep_eq]
  cases op.callback <;> simp [runCallback_queue]

theorem syncStep_offline_queue (backend : Backend) (op : QueuedOp) (st : AppSt) :
    (syncStep backend op st).offline_queue = st.offline_queue := by
  rw [syncStep_eq]
  cases op.callback <;> simp [runCallback_offline_queue]

theorem syncStep_attempted (backend : Backend) (op : QueuedOp) (st : AppSt) :
    (syncStep backend op st).attempted = st.attempted ++ [op] := by
  rw [syncStep_eq]
  cases op.callback <;> simp [runCallback_attempted]

theorem syncStep_nocb (backend : Backend) (op : QueuedOp) (st : AppSt)
    (h : op.callback = none) :
    syncStep backend op st = { st with attempted := st.attempted ++ [op] } := by
  rw [syncStep_eq, h]

theorem drain_attempted (backend : Backend) (ops : List QueuedOp) (st : AppSt) :
    (ops.foldl (fun s op => syncStep backend op s) st).attempted
      = st.attempted ++ ops := by
  induction ops generalizing st with
  | nil => simp
  | cons op rest ih =>
    simp only [List.foldl_cons, ih, syncStep_attempted, List.append_assoc,
      List.singleton_append]

theorem drain_queue (backend : Backend) (ops : List QueuedOp) (st : AppSt) :
    (ops.foldl (fun s op => syncStep backend op s) st).queue = st.queue := by
  induction ops generalizing st with
  | nil => rfl
  | cons op rest ih => simp only [List.foldl_cons, ih, syncStep_queue]

theorem drain_offline_queue (backend : Backend) (ops : List QueuedOp)
    (st : AppSt) :
    (ops.foldl (fun s op => syncStep backend op s) st).offline_queue
      = st.offline_queue := by
  induction ops generalizing st with
  | nil => rfl
  | cons op rest ih => simp only [List.foldl_cons, ih, syncStep_offline_queue]

theorem drain_nocb (backend : Backend) (ops : List QueuedOp) (st : AppSt)
    (h : ∀ op ∈ ops, op.callback = none) :
    ops.foldl (fun s op => syncStep backend op s) st
      = { st with attempted := st.attempted ++ ops } := by
  induction ops generalizing st with
  | nil => simp
  | cons op rest ih =>
    have hop : op.callback = none := h op (List.mem_cons_self op rest)
    have hrest : ∀ o ∈ rest, o.callback = none :=
      fun o ho => h o (List.mem_cons_of_mem op ho)
    simp only [List.foldl_cons, syncStep_nocb backend op st hop, ih _ hrest,
      List.append_assoc, List.singleton_append]

theorem syncWithServer_attempted (backend : Backend) (st : AppSt) :
    (syncWithServer true backend st).attempted = st.attempted ++ st.queue := by
  unfold syncWithServer
  cases hq : st.queue with
  | nil => simp
  | cons op rest => simp [drain_attempted, hq, syncStep_attempted]

theorem coe_append_multiset {α : Type} (a b : List α) :
    ((a ++ b : List α) : Multiset α) = (a : Multiset α) + (b : Multiset α) := by
  exact_mod_cast rfl

theorem flatten_set_perm {α : Type} (L : List (List α)) (i : Nat) (op : α)
    (rest : List α) (h : L[i]? = some (op :: rest)) :
    ((L.set i rest).flatten : Multiset α) + {op} = (L.flatten : Multiset α) := by
  induction L generalizing i with
  | nil => simp at h
  | cons hd tl ih =>
    cases i with
    | zero =>
      simp only [List.getElem?_cons_zero, Option.some.injEq] at h
      subst h
      simp only [List.set_cons_zero, List.flatten_cons, coe_append_multiset,
        ← Multiset.cons_coe]
      rw [add_comm, Multiset.singleton_add]
      rfl
    | succ j =>
      simp only [List.getElem?_cons_succ] at h
      simp only [List.set_cons_succ, List.flatten_cons, coe_append_multiset]
      rw [add_assoc, ih j h]

theorem pendingOps_machStep (backend : Backend) (m : Machine) (e : Ev) :
    pendingOps (machStep backend m e)
      = pendingOps m + (enqueuedOps [e] : Multiset QueuedOp) := by
  cases e with
  | invoke onLine =>
    simp only [machStep, enqueuedOps]
    by_cases hg : (!onLine || m.app.queue.isEmpty) = true
    · simp [hg, pendingOps]
    · simp only [hg, if_false, Bool.false_eq_true, pendingOps,
        List.flatten_append, List.flatten_cons, List.flatten_nil,
        List.append_nil, coe_append_multiset, Multiset.coe_nil, add_zero]
      abel
  | step i =>
    simp only [machStep, enqueuedOps]
    cases ht : m.tasks[i]? with
    | none => simp [pendingOps]
    | some task =>
      cases task with
      | nil => simp [pendingOps]
      | cons op rest =>
        simp only [pendingOps, syncStep_queue, syncStep_attempted,
          coe_append_multiset, Multiset.coe_singleton, Multiset.coe_nil,
          add_zero]
        rw [← flatten_set_perm m.tasks i op rest ht]
        abel
  | enq endpoint options callback now =>
    simp only [machStep, enqueuedOps, pendingOps, addToQueue,
      coe_append_multiset, Multiset.coe_singleton]
    abel

theorem pendingOps_machRun (backend : Backend) (evs : List Ev) (m : Machine) :
    pendingOps (machRun backend m evs)
      = pendingOps m + (enqueuedOps evs : Multiset QueuedOp) := by
  induction evs generalizing m with
  | nil => simp [machRun, enqueuedOps]
  | cons e evs ih =>
    rw [machRun, ih, pendingOps_machStep]
    cases e <;>
      simp only [enqueuedOps, Multiset.coe_nil, add_zero,
        ← Multiset.cons_coe, ← Multiset.singleton_add] <;>
      abel

theorem machStep_stored_inv (backend : Backend) (m : Machine) (e : Ev)
    (h : m.app.offline_queue = m.app.queue.map toPersisted) :
    (machStep backend m e).app.offline_queue
      = (machStep backend m e).app.queue.map toPersisted := by
  cases e with
  | invoke onLine =>
    simp only [machStep]
    by_cases hg : (!onLine || m.app.queue.isEmpty) = true
    · simp [hg, h]
    · simp [hg]
  | step i =>
    simp only [machStep]
    cases ht : m.tasks[i]? with
    | none => simpa using h
    | some task =>
      cases task with
      | nil => simpa using h
      | cons op rest => simpa [syncStep_queue, syncStep_offline_queue] using h
  | enq endpoint options callback now => simp [machStep, addToQueue]

theorem machRun_stored_inv (backend : Backend) (evs : List Ev) (m : Machine)
    (h : m.app.offline_queue = m.app.queue.map toPersisted) :
    (machRun backend m evs).app.offline_queue
      = (machRun backend m evs).app.queue.map toPersisted := by
  induction evs generalizing m with
  | nil => simpa [machRun] using h
  | cons e evs ih => exact ih _ (machStep_stored_inv backend m e h)

theorem machRun_queue_noInvoke (backend : Backend) (evs : List Ev)
    (m : Machine) (h : hasInvoke evs = false) :
    (machRun backend m evs).app.queue = m.app.queue ++ enqueuedOps evs := by
  induction evs generalizing m with
  | nil => simp [machRun, enqueuedOps]
  | cons e evs ih =>
    cases e with
    | invoke onLine => simp [hasInvoke] at h
    | step i =>
      rw [machRun, ih _ (by simpa [hasInvoke] using h)]
      have hq : (machStep backend m (.step i)).app.queue = m.app.queue := by
        simp only [machStep]
        cases ht : m.tasks[i]? with
        | none => rfl
        | some task =>
          cases task with
          | nil => rfl
          | cons op rest => simp [syncStep_queue]
      rw [hq]
      simp [enqueuedOps]
    | enq endpoint options callback now =>
      rw [machRun, ih _ (by simpa [hasInvoke] using h)]
      simp [machStep, addToQueue, enqueuedOps]

theorem foldl_addListener (fns acc : List Listener) :
    fns.foldl addListener acc = acc ++ fns := by
  induction fns generalizing acc with
  | nil => simp
  | cons f rest ih => simp [addListener, ih]

theorem notifyListeners_length (ls : List Listener) (clients : List ClientRec) :
    (notifyListeners ls clients).length = ls.length := by
  induction ls with
  | nil => rfl
  | cons l rest ih => simp [notifyListeners, ih]

theorem notifyListeners_getElem (ls : List Listener) (clients : List ClientRec)
    (i : Nat) :
    (notifyListeners ls clients)[i]? = (ls[i]?).map (notifyOne clients) := by
  induction ls generalizing i with
  | nil => simp [notifyListeners]
  | cons l rest ih =>
    cases i with
    | zero => simp [notifyListeners]
    | succ j => simp [notifyListeners, ih]

theorem toDigitsCore_append (n : Nat) : ∀ (fuel : Nat) (ds : List Char),
    n < fuel →
    Nat.toDigitsCore 10 fuel n ds = Nat.toDigitsCore 10 (n + 1) n [] ++ ds := by
  induction n using Nat.strong_induction_on with
  | _ n ih =>
    intro fuel ds hfuel
    obtain ⟨f, rfl⟩ : ∃ f, fuel = f + 1 := ⟨fuel - 1, by omega⟩
    by_cases h0 : n / 10 = 0
    · simp [Nat.toDigitsCore, h0]
    · have hn0 : n ≠ 0 := fun h => h0 (by simp [h])
      have hlt : n / 10 < n := Nat.div_lt_self (Nat.pos_of_ne_zero hn0) (by omega)
      have hf : n / 10 < f := by omega
      rw [show Nat.toDigitsCore 10 (f + 1) n ds
            = Nat.toDigitsCore 10 f (n / 10) (Nat.digitChar (n % 10) :: ds) by
          simp [Nat.toDigitsCore, h0]]
      rw [show Nat.toDigitsCore 10 (n + 1) n []
            = Nat.toDigitsCore 10 n (n / 10) [Nat.digitChar (n % 10)] by
          simp [Nat.toDigitsCore, h0]]
      rw [ih (n / 10) hlt f _ hf, ih (n / 10) hlt n _ hlt]
      simp

theorem digitChar_val : ∀ m : Nat, m < 10 → (Nat.digitChar m).toNat - 48 = m := by
  decide

theorem digitsVal_append (l : List Char) (c : Char) :
    digitsVal (l ++ [c]) = 10 * digitsVal l + (c.toNat - 48) := by
  simp [digitsVal, List.foldl_append]

theorem digitsVal_toDigits (n : Nat) : digitsVal (Nat.toDigits 10 n) = n := by
  induction n using Nat.strong_induction_on with
  | _ n ih =>
    by_cases h0 : n / 10 = 0
    · have hn : n < 10 := by omega
      rw [show Nat.toDigits 10 n = [Nat.digitChar (n % 10)] by
        simp [Nat.toDigits, Nat.toDigitsCore, h0]]
      simp only [digitsVal, List.foldl_cons, List.foldl_nil, Nat.mul_zero,
        Nat.zero_add, Nat.mod_eq_of_lt hn]
      exact digitChar_val n hn
    · have hn0 : n ≠ 0 := fun h => h0 (by simp [h])
      have hlt : n / 10 < n := Nat.div_lt_self (Nat.pos_of_ne_zero hn0) (by omega)
      have hsplit : Nat.toDigits 10 n
          = Nat.toDigits 10 (n / 10) ++ [Nat.digitChar (n % 10)] := by
        rw [show Nat.toDigits 10 n
              = Nat.toDigitsCore 10 n (n / 10) [Nat.digitChar (n % 10)] by
            simp [Nat.toDigits, Nat.toDigitsCore, h0]]
        exact toDigitsCore_append (n / 10) n _ hlt
      rw [hsplit, digitsVal_append, ih (n / 10) hlt,
        digitChar_val _ (Nat.mod_lt n (by omega))]
      omega

theorem natRepr_data_inj (m n : Nat)
    (h : (Nat.repr m).data = (Nat.repr n).data) : m = n := by
  have h2 : Nat.toDigits 10 m = Nat.toDigits 10 n := h
  rw [← digitsVal_toDigits m, ← digitsVal_toDigits n, h2]

theorem tempId_inj (t1 t2 : Nat) (h : tempId t1 = tempId t2) : t1 = t2 := by
  have hdata := congrArg String.data h
  simp only [tempId, String.data_append] at hdata
  exact natRepr_data_inj t1 t2 (List.append_cancel_left hdata)

/-- C1: evaluation of the code at the failing inputs of the claim.  The
claim says a transient response (no response / statusCode 0, or 5xx)
during `performOperation` appends the operation to the offline queue and
answers `queued`.  On the code, while online, a 500 response and a
no-response failure both return the `handleError` object unchanged and
leave the queue untouched, because `apiRequest` returns its errors rather
than throwing them, so the queueing `catch` branch of `performOperation`
never runs; a 400 response is likewise returned with the queue unchanged
(that half of the claim matches the code). -/
theorem C1_online_transient_not_queued :
    performOperation true backendServerError "/clients" ⟨.POST, some "Acme"⟩
        (some .createClientCb) 3 emptySt = (ApiRes.error 500, emptySt)
    ∧ performOperation true backendNoResponse "/clients" ⟨.POST, some "Acme"⟩
        (some .createClientCb) 3 emptySt = (ApiRes.error 0, emptySt)
    ∧ performOperation true (fun _ _ => .httpError 400) "/clients"
        ⟨.POST, some "Acme"⟩ (some .createClientCb) 3 emptySt
        = (ApiRes.error 400, emptySt)
    ∧ emptySt.queue = [] := by
  decide

/-- C2 counterexample: the claim, evaluated at `createClient` of payload
`Acme` queued at time 5 and a drain in which the create succeeds with the
server record `abc123`, is false: after the drain the mirror holds two
records for that create (the provisional one, still flagged, and the
confirmed one), not exactly one. -/
theorem C2_counterexample :
    ((createClient false backendServerError "Acme" 5 emptySt).2).clients
      = [tempAcme5]
    ∧ (syncWithServer true (backendOk acmeSrv)
        (createClient false backendServerError "Acme" 5 emptySt).2).clients
      = [tempAcme5, acmeSrv]
    ∧ tempAcme5._isTemp = true
    ∧ ¬ (syncWithServer true (backendOk acmeSrv)
        (createClient false backendServerError "Acme" 5 emptySt).2).clients.length
        = 1 := by
  decide

/-- C2 amended: after a `createClient` whose operation is queued, the
mirror contains exactly one record for that create, bearing a temporary
identifier and the provisional flag; after a subsequent drain in which
the queued create succeeds, the mirror contains TWO records for that
create — the provisional one, unchanged, still with its temporary
identifier and flag, and a second record with the server-assigned
identifier appended by the completion callback (the provisional record is
not replaced). -/
theorem C2_amended_queued_create_then_drain_duplicates
    (clientData : String) (now : Nat) (c : ClientRec)
    (backend1 backend2 : Backend)
    (hb : backend2 "/clients" ⟨.POST, some clientData⟩ = .ok c) :
    (createClient false backend1 clientData now emptySt).1
      = some ⟨tempId now, clientData, now, now, true, []⟩
    ∧ (createClient false backend1 clientData now emptySt).2.clients
      = [⟨tempId now, clientData, now, now, true, []⟩]
    ∧ (syncWithServer true backend2
        (createClient false backend1 clientData now emptySt).2).clients
      = [⟨tempId now, clientData, now, now, true, []⟩, c] := by
  refine ⟨rfl, rfl, ?_⟩
  show (runCallback .createClientCb
      (apiRequest (backend2 "/clients" ⟨.POST, some clientData⟩))
      { queue := [], offline_queue := [],
        clients := [⟨tempId now, clientData, now, now, true, []⟩],
        cached_clients := [⟨tempId now, clientData, now, now, true, []⟩],
        attempted := [⟨"/clients", ⟨.POST, some clientData⟩,
          some .createClientCb, now⟩],
        invoked := [.createClientCb] }).clients
    = [⟨tempId now, clientData, now, now, true, []⟩, c]
  rw [hb]
  rfl

/-- C2 amended witness: the amended claim at payload `Acme`, time 5 and
server record `abc123`. -/
theorem C2_amended_witness :
    backendOk acmeSrv "/clients" ⟨.POST, some "Acme"⟩ = .ok acmeSrv
    ∧ ((createClient false backendServerError "Acme" 5 emptySt).1
        = some ⟨tempId 5, "Acme", 5, 5, true, []⟩
      ∧ (createClient false backendServerError "Acme" 5 emptySt).2.clients
        = [⟨tempId 5, "Acme", 5, 5, true, []⟩]
      ∧ (syncWithServer true (backendOk acmeSrv)
          (createClient false backendServerError "Acme" 5 emptySt).2).clients
        = [⟨tempId 5, "Acme", 5, 5, true, []⟩, acmeSrv]) :=
  ⟨rfl, C2_amended_queued_create_then_drain_duplicates "Acme" 5 acmeSrv
    backendServerError (backendOk acmeSrv) rfl⟩

/-- C3: evaluation of the code at the failing input of the claim.  The
claim says an operation whose delivery attempt fails transiently during a
drain is re-appended to the live queue.  On the code, draining a queue
holding one operation against a backend that answers 500 (and likewise
one that never answers) issues the request once and removes the
operation for good: the live queue and the persisted queue end empty,
because `apiRequest` returns the error instead of throwing, so the
re-queueing `catch` branch of `syncWithServer` never runs — the business
operation is lost. -/
theorem C3_transient_drain_failure_drops_operation :
    (syncWithServer true backendServerError
        { emptySt with queue := [opA],
                       offline_queue := [toPersisted opA] }).queue = []
    ∧ (syncWithServer true backendServerError
        { emptySt with queue := [opA],
                       offline_queue := [toPersisted opA] }).offline_queue = []
    ∧ (syncWithServer true backendServerError
        { emptySt with queue := [opA],
                       offline_queue := [toPersisted opA] }).attempted = [opA]
    ∧ (syncWithServer true backendNoResponse
        { emptySt with queue := [opA],
                       offline_queue := [toPersisted opA] }).queue = [] := by
  decide

theorem machRun_fresh_not_attempted (backend : Backend) (evs : List Ev)
    (m : Machine) (op : QueuedOp)
    (hno : hasInvoke evs = false)
    (hatt : op ∉ m.app.attempted)
    (hfl : op ∉ m.tasks.flatten) :
    op ∉ (machRun backend m evs).app.attempted := by
  intro hmem
  have hpend := congrArg (Multiset.count op) (pendingOps_machRun backend evs m)
  simp only [pendingOps, Multiset.count_add, Multiset.coe_count,
    machRun_queue_noInvoke backend evs m hno, List.count_append] at hpend
  have h1 : m.app.attempted.count op = 0 := List.count_eq_zero.mpr hatt
  have h2 : m.tasks.flatten.count op = 0 := List.count_eq_zero.mpr hfl
  have h3 : 0 < ((machRun backend m evs).app.attempted).count op :=
    List.count_pos_iff.mpr hmem
  omega

/-- C4: during a drain in online mode the snapshot is processed strictly
sequentially in enqueue (FIFO) order: the requests issued to the Remote
Client are exactly the queued operations in their queue order (appended
to the prior request trace); in particular, for operations A then B
enqueued in that order, the request for A is issued before the request
for B, with no reordering. -/
theorem C4_drain_fifo_order (backend : Backend) (st : AppSt) :
    (syncWithServer true backend st).attempted = st.attempted ++ st.queue := by
  unfold syncWithServer
  cases hq : st.queue with
  | nil => simp
  | cons op rest => simp [drain_attempted, hq, syncStep_attempted]

/-- C5: the synchronous prefix of the drain snapshots the queue, empties
the live queue and persists the empty state before attempting any
operation; an operation enqueued after the snapshot (by any events that
do not start another drain) is not part of the in-flight batch — it is
never attempted, stays in the live queue and stays persisted for a future
drain; and draining an empty queue is a no-op that issues no Remote
Client call. -/
theorem C5_snapshot_clear_persist_before_processing
    (backend : Backend) (q : List QueuedOp) (evs : List Ev) (op : QueuedOp)
    (hq : q ≠ [])
    (hno : hasInvoke evs = false)
    (henq : op ∈ enqueuedOps evs)
    (hfresh : op ∉ q) :
    ((machStep backend (initMachine q) (.invoke true)).app.queue = []
      ∧ (machStep backend (initMachine q) (.invoke true)).app.offline_queue = []
      ∧ (machStep backend (initMachine q) (.invoke true)).app.attempted = []
      ∧ (machStep backend (initMachine q) (.invoke true)).tasks = [q])
    ∧ (op ∈ (machRun backend
          (machStep backend (initMachine q) (.invoke true)) evs).app.queue
      ∧ toPersisted op ∈ (machRun backend
          (machStep backend (initMachine q) (.invoke true)) evs).app.offline_queue
      ∧ op ∉ (machRun backend
          (machStep backend (initMachine q) (.invoke true)) evs).app.attempted)
    ∧ machRun backend (initMachine []) [.invoke true] = initMachine [] := by
  have hm1 : machStep backend (initMachine q) (.invoke true)
      = { app := { queue := [], offline_queue := [], clients := [],
                   cached_clients := [], attempted := [], invoked := [] },
          tasks := [q] } := by
    cases q with
    | nil => exact absurd rfl hq
    | cons a as => simp [machStep, initMachine]
  refine ⟨⟨by rw [hm1], by rw [hm1], by rw [hm1], by rw [hm1]⟩,
    ⟨?_, ?_, ?_⟩, rfl⟩
  · rw [machRun_queue_noInvoke backend evs _ hno, hm1]
    simpa using henq
  · rw [machRun_stored_inv backend evs _ (by rw [hm1]; rfl),
      machRun_queue_noInvoke backend evs _ hno, hm1]
    exact List.mem_map_of_mem toPersisted (by simpa using henq)
  · exact machRun_fresh_not_attempted backend evs _ op hno
      (by rw [hm1]; simp) (by rw [hm1]; simpa using hfresh)

/-- C5 witness: a drain of a one-operation queue during which a second
operation is enqueued between the snapshot and the loop iteration. -/
theorem C5_witness :
    ([opA] ≠ ([] : List QueuedOp)
      ∧ hasInvoke [.enq "/x" ⟨.POST, some "B"⟩ none 9, .step 0] = false
      ∧ (⟨"/x", ⟨.POST, some "B"⟩, none, 9⟩ : QueuedOp)
          ∈ enqueuedOps [.enq "/x" ⟨.POST, some "B"⟩ none 9, .step 0]
      ∧ (⟨"/x", ⟨.POST, some "B"⟩, none, 9⟩ : QueuedOp) ∉ [opA])
    ∧ (((machStep (backendOk acmeSrv) (initMachine [opA]) (.invoke true)).app.queue = []
      ∧ (machStep (backendOk acmeSrv) (initMachine [opA]) (.invoke true)).app.offline_queue = []
      ∧ (machStep (backendOk acmeSrv) (initMachine [opA]) (.invoke true)).app.attempted = []
      ∧ (machStep (backendOk acmeSrv) (initMachine [opA]) (.invoke true)).tasks = [[opA]])
    ∧ ((⟨"/x", ⟨.POST, some "B"⟩, none, 9⟩ : QueuedOp) ∈ (machRun (backendOk acmeSrv)
          (machStep (backendOk acmeSrv) (initMachine [opA]) (.invoke true))
          [.enq "/x" ⟨.POST, some "B"⟩ none 9, .step 0]).app.queue
      ∧ toPersisted ⟨"/x", ⟨.POST, some "B"⟩, none, 9⟩ ∈ (machRun (backendOk acmeSrv)
          (machStep (backendOk acmeSrv) (initMachine [opA]) (.invoke true))
          [.enq "/x" ⟨.POST, some "B"⟩ none 9, .step 0]).app.offline_queue
      ∧ (⟨"/x", ⟨.POST, some "B"⟩, none, 9⟩ : QueuedOp) ∉ (machRun (backendOk acmeSrv)
          (machStep (backendOk acmeSrv) (initMachine [opA]) (.invoke true))
          [.enq "/x" ⟨.POST, some "B"⟩ none 9, .step 0]).app.attempted)
    ∧ machRun (backendOk acmeSrv) (initMachine []) [.invoke true]
        = initMachine []) :=
  ⟨⟨by decide, by decide, by decide, by decide⟩,
    C5_snapshot_clear_persist_before_processing (backendOk acmeSrv) [opA]
      [.enq "/x" ⟨.POST, some "B"⟩ none 9, .step 0]
      ⟨"/x", ⟨.POST, some "B"⟩, none, 9⟩
      (by decide) (by decide) (by decide) (by decide)⟩

/-- C6 counterexample: the claim, evaluated at `deleteClient` of the
mirror record `id1`, is false: a confirmed deletion (online, backend
acknowledges) returns `true` and a merely queued deletion (offline, the
operation lands in the queue) also returns `true`, so the caller cannot
tell them apart from the return value. -/
theorem C6_counterexample :
    (deleteClient true (backendOk acmeSrv) "id1" 0
        { emptySt with clients := [clientId1] }).1 = true
    ∧ (deleteClient false (backendOk acmeSrv) "id1" 0
        { emptySt with clients := [clientId1] }).1 = true
    ∧ (deleteClient false (backendOk acmeSrv) "id1" 0
        { emptySt with clients := [clientId1] }).2.queue ≠ []
    ∧ (deleteClient true (backendOk acmeSrv) "id1" 0
        { emptySt with clients := [clientId1] }).2.queue = [] := by
  decide

/-- C6 amended: `performOperation` itself answers a queued mutation with
the dedicated `queued` status, which no confirmed success equals, so its
callers can distinguish the two; `deleteClient`, however, maps both the
confirmed and the queued outcome to `true`, so the `deleteClient` caller
cannot tell a confirmed deletion from a merely queued one. -/
theorem C6_amended_deleteClient_collapses_queued
    (backend : Backend) (id : String) (now : Nat) (st : AppSt) (c : ClientRec)
    (hb : backend ("/clients/" ++ id) ⟨.DELETE, none⟩ = .ok c) :
    (performOperation false backend ("/clients/" ++ id) ⟨.DELETE, none⟩
        (some (.deleteClientCb id)) now st).1 = ApiRes.queued
    ∧ ApiRes.queued ≠ ApiRes.success c
    ∧ (deleteClient true backend id now st).1 = true
    ∧ (deleteClient false backend id now st).1 = true := by
  refine ⟨rfl, by simp, ?_, rfl⟩
  have hx : apiRequest (backend ("/clients/" ++ id) ⟨.DELETE, none⟩)
      = ApiRes.success c := by
    simp [apiRequest, apiRequestTry, hb]
  simp [deleteClient, performOperation, apiRequestAwait, hx]

/-- C6 amended witness: the amended claim at record `id1` and backend
acknowledging with `abc123`. -/
theorem C6_amended_witness :
    backendOk acmeSrv ("/clients/" ++ "id1") ⟨.DELETE, none⟩ = .ok acmeSrv
    ∧ ((performOperation false (backendOk acmeSrv) ("/clients/" ++ "id1")
          ⟨.DELETE, none⟩ (some (.deleteClientCb "id1")) 0 emptySt).1
        = ApiRes.queued
      ∧ ApiRes.queued ≠ ApiRes.success acmeSrv
      ∧ (deleteClient true (backendOk acmeSrv) "id1" 0 emptySt).1 = true
      ∧ (deleteClient false (backendOk acmeSrv) "id1" 0 emptySt).1 = true) :=
  ⟨rfl, C6_amended_deleteClient_collapses_queued (backendOk acmeSrv) "id1" 0
    emptySt acmeSrv rfl⟩

/-- C7 counterexample: the claim, evaluated at two distinct queued
mutations in one session (offline creates of payloads `Acme` and then
`Bolt`, both in millisecond 7), is false: the queue holds the two
distinct mutations, yet both provisional records carry the same
temporary identifier, so the identifiers are not distinct. -/
theorem C7_counterexample :
    (createClient false backendServerError "Bolt" 7
        (createClient false backendServerError "Acme" 7 emptySt).2).2.queue.length
      = 2
    ∧ ((createClient false backendServerError "Bolt" 7
        (createClient false backendServerError "Acme" 7 emptySt).2).2.queue.map
          (fun o => o.options.body)) = [some "Acme", some "Bolt"]
    ∧ ((createClient false backendServerError "Bolt" 7
        (createClient false backendServerError "Acme" 7 emptySt).2).2.clients.map
          (fun c => c._id)) = [tempId 7, tempId 7]
    ∧ ¬ ((createClient false backendServerError "Bolt" 7
        (createClient false backendServerError "Acme" 7 emptySt).2).2.clients.map
          (fun c => c._id)).Nodup := by
  decide

/-- C7 amended: every provisional record carries the temporary-identifier
marker (`temp_` followed by the decimal enqueue time) and the `_isTemp`
flag, for both the queued `createClient` record and the queued
`addClientNote` sub-record; the identifiers of two queued mutations are
distinct whenever their timestamps differ — two mutations in the same
millisecond receive identical identifiers, so uniqueness within a session
is not guaranteed by deriving the identifier from the current time. -/
theorem C7_amended_marker_and_distinct_when_times_differ
    (clientData noteData id : String) (backend : Backend)
    (now t1 t2 : Nat) (st : AppSt) (i : Nat) (cl : ClientRec)
    (hfind : findClient st.clients id = some (i, cl))
    (hne : t1 ≠ t2) :
    tempId now = "temp_" ++ Nat.repr now
    ∧ (createClient false backend clientData now st).1
      = some ⟨tempId now, clientData, now, now, true, []⟩
    ∧ (addClientNote false backend id noteData now st).1
      = some { cl with notes := cl.notes ++ [⟨tempId now, noteData, now, true⟩],
                       updatedAt := now }
    ∧ tempId t1 ≠ tempId t2 := by
  refine ⟨rfl, rfl, ?_, fun h => hne (tempId_inj t1 t2 h)⟩
  simp [addClientNote, performOperation, addToQueue, hfind]

/-- C7 amended witness: the amended claim at the mirror `[clientId1]`,
note target `id1`, time 3, and the distinct timestamps 1 and 2. -/
theorem C7_amended_witness :
    (findClient [clientId1] "id1" = some (0, clientId1)
      ∧ (1 : Nat) ≠ 2)
    ∧ (tempId 3 = "temp_" ++ Nat.repr 3
      ∧ (createClient false backendServerError "Acme" 3
          { emptySt with clients := [clientId1] }).1
        = some ⟨tempId 3, "Acme", 3, 3, true, []⟩
      ∧ (addClientNote false backendServerError "id1" "note" 3
          { emptySt with clients := [clientId1] }).1
        = some { clientId1 with
                   notes := clientId1.notes ++ [⟨tempId 3, "note", 3, true⟩],
                   updatedAt := 3 }
      ∧ tempId 1 ≠ tempId 2) :=
  ⟨⟨by decide, by decide⟩,
    C7_amended_marker_and_distinct_when_times_differ "Acme" "note" "id1"
      backendServerError 3 1 2 { emptySt with clients := [clientId1] } 0
      clientId1 (by decide) (by decide)⟩

/-- C8: a publish through `_notifyListeners` synchronously invokes every
listener registered through `addListener`, in registration order; the
outcome recorded for the listener at any position is exactly that
listener applied to the snapshot, whatever the other listeners do, so a
listener that raises does not prevent any later-registered listener from
being invoked — as the concrete raising/completing pair shows. -/
theorem C8_notify_every_registered_listener_in_order (fns : List Listener)
    (clients : List ClientRec) (i : Nat) :
    (notifyListeners (fns.foldl addListener []) clients).length = fns.length
    ∧ (notifyListeners (fns.foldl addListener []) clients)[i]?
      = (fns[i]?).map (notifyOne clients)
    ∧ notifyListeners [badListener, goodListener] clients
      = [.raised ⟨none⟩, .completed] := by
  rw [foldl_addListener]
  simp only [List.nil_append]
  exact ⟨notifyListeners_length fns clients,
    notifyListeners_getElem fns clients i, rfl⟩

/-- C9: whatever cooperative schedule interleaves any number of drain
invocations, loop iterations and enqueues, once every started drain has
finished its snapshot and the live queue is empty, the requests issued
equal — as a multiset — the initially queued operations together with the
operations enqueued along the way: each queued operation was attempted
exactly once.  The snapshot-and-clear prefix of `syncWithServer` is the
mechanism: a second drain invoked while one is in flight sees the already
emptied queue and snapshots only operations the first drain does not
own. -/
theorem C9_concurrent_drains_attempt_each_op_once (backend : Backend)
    (q0 : List QueuedOp) (evs : List Ev) (op : QueuedOp)
    (hdone : (machRun backend (initMachine q0) evs).tasks.flatten = [])
    (hq : (machRun backend (initMachine q0) evs).app.queue = []) :
    ((machRun backend (initMachine q0) evs).app.attempted : Multiset QueuedOp)
      = (q0 : Multiset QueuedOp) + (enqueuedOps evs : Multiset QueuedOp)
    ∧ (machRun backend (initMachine q0) evs).app.attempted.count op
      = (q0 ++ enqueuedOps evs).count op := by
  have hpend := pendingOps_machRun backend evs (initMachine q0)
  have hinit : pendingOps (initMachine q0) = (q0 : Multiset QueuedOp) := by
    simp [pendingOps, initMachine]
  rw [hinit] at hpend
  simp only [pendingOps, hdone, hq, Multiset.coe_nil, add_zero] at hpend
  refine ⟨hpend, ?_⟩
  have hc := congrArg (Multiset.count op) hpend
  simpa [Multiset.count_add, Multiset.coe_count, List.count_append] using hc

/-- C9 witness: two drains invoked back to back on a two-operation queue;
the second sees the emptied queue, and the two operations are attempted
once each. -/
theorem C9_witness :
    ((machRun (backendOk acmeSrv) (initMachine [opA, opB])
        [.invoke true, .invoke true, .step 0, .step 0]).tasks.flatten = []
      ∧ (machRun (backendOk acmeSrv) (initMachine [opA, opB])
        [.invoke true, .invoke true, .step 0, .step 0]).app.queue = [])
    ∧ (((machRun (backendOk acmeSrv) (initMachine [opA, opB])
        [.invoke true, .invoke true, .step 0, .step 0]).app.attempted
          : Multiset QueuedOp)
        = ([opA, opB] : Multiset QueuedOp)
          + (enqueuedOps [.invoke true, .invoke true, .step 0, .step 0]
              : Multiset QueuedOp)
      ∧ (machRun (backendOk acmeSrv) (initMachine [opA, opB])
        [.invoke true, .invoke true, .step 0, .step 0]).app.attempted.count opA
        = ([opA, opB]
            ++ enqueuedOps [.invoke true, .invoke true, .step 0, .step 0]).count
            opA) :=
  ⟨⟨by decide, by decide⟩,
    C9_concurrent_drains_attempt_each_op_once (backendOk acmeSrv) [opA, opB]
      [.invoke true, .invoke true, .step 0, .step 0] opA
      (by decide) (by decide)⟩

/-- C10: an operation that goes through the `JSON.stringify` persistence
round trip and is restored after a restart has no callback field, so a
drain of restored operations never invokes a completion callback and the
mirror reconciliation the callback would perform never happens: the
mirror and its cache are left untouched by the drain. -/
theorem C10_restored_operations_lose_callbacks (op : QueuedOp)
    (backend : Backend) (ps : List PersistedOp) (st : AppSt)
    (hq : st.queue = ps.map ofPersisted) :
    (ofPersisted (toPersisted op)).callback = none
    ∧ (syncWithServer true backend st).invoked = st.invoked
    ∧ (syncWithServer true backend st).clients = st.clients
    ∧ (syncWithServer true backend st).cached_clients = st.cached_clients := by
  have hcb : ∀ o ∈ st.queue, o.callback = none := by
    intro o ho
    rw [hq] at ho
    obtain ⟨p, _, rfl⟩ := List.mem_map.mp ho
    rfl
  refine ⟨rfl, ?_, ?_, ?_⟩ <;>
  · unfold syncWithServer
    cases hqq : st.queue with
    | nil => simp
    | cons o rest =>
      have h2 : ∀ x ∈ o :: rest, x.callback = none := hqq ▸ hcb
      simp [drain_nocb backend (o :: rest) _ h2]

/-- C10 witness: a queue restored from the persisted copy of an operation
that was enqueued with the `createClient` completion callback. -/
theorem C10_witness :
    ({ emptySt with
         queue := [toPersisted ⟨"/clients", ⟨.POST, some "A"⟩,
           some .createClientCb, 1⟩].map ofPersisted } : AppSt).queue
      = [toPersisted ⟨"/clients", ⟨.POST, some "A"⟩,
          some .createClientCb, 1⟩].map ofPersisted
    ∧ ((ofPersisted (toPersisted ⟨"/clients", ⟨.POST, some "A"⟩,
          some .createClientCb, 1⟩)).callback = none
      ∧ (syncWithServer true (backendOk acmeSrv)
          { emptySt with
              queue := [toPersisted ⟨"/clients", ⟨.POST, some "A"⟩,
                some .createClientCb, 1⟩].map ofPersisted }).invoked
        = ({ emptySt with
              queue := [toPersisted ⟨"/clients", ⟨.POST, some "A"⟩,
                some .createClientCb, 1⟩].map ofPersisted } : AppSt).invoked
      ∧ (syncWithServer true (backendOk acmeSrv)
          { emptySt with
              queue := [toPersisted ⟨"/clients", ⟨.POST, some "A"⟩,
                some .createClientCb, 1⟩].map ofPersisted }).clients
        = ({ emptySt with
              queue := [toPersisted ⟨"/clients", ⟨.POST, some "A"⟩,
                some .createClientCb, 1⟩].map ofPersisted } : AppSt).clients
      ∧ (syncWithServer true (backendOk acmeSrv)
          { emptySt with
              queue := [toPersisted ⟨"/clients", ⟨.POST, some "A"⟩,
                some .createClientCb, 1⟩].map ofPersisted }).cached_clients
        = ({ emptySt with
              queue := [toPersisted ⟨"/clients", ⟨.POST, some "A"⟩,
                some .createClientCb, 1⟩].map ofPersisted } : AppSt).cached_clients) :=
  ⟨rfl, C10_restored_operations_lose_callbacks
    ⟨"/clients", ⟨.POST, some "A"⟩, some .createClientCb, 1⟩
    (backendOk acmeSrv)
    [toPersisted ⟨"/clients", ⟨.POST, some "A"⟩, some .createClientCb, 1⟩]
    { emptySt with
        queue := [toPersisted ⟨"/clients", ⟨.POST, some "A"⟩,
          some .createClientCb, 1⟩].map ofPersisted }
    rfl⟩
